import Mathlib

/-!
Shallow embedding of the iptv-player feed-ingestion core:
M3U playlist parsing (`m3u-parser.ts`), XMLTV guide parsing
(`xmltv-parser.ts`), the EPG freshness cache and now/next matcher
(`db/queries.ts`, `routes/epg.ts`), and the enrichment merge
(`routes/channels.ts`).

JavaScript numbers that may be `NaN` are modelled as `Option Int`
(`none` = `NaN`; in database columns `none` also models SQL `NULL`).
`Date.now()` and the results of network fetches are passed as explicit
parameters, and `generateUUID` is modelled by a fresh-id counter carried
in the database state.
-/

namespace IPTV

/-- JavaScript number used in timestamp positions: `none` models `NaN`. -/
abbrev JSNum := Option Int

/-- JavaScript `<` on possibly-NaN numbers: every comparison with NaN is false. -/
def jsLt (a b : JSNum) : Bool :=
  match a, b with
  | some x, some y => decide (x < y)
  | _, _ => false

/-- JavaScript `<=` on possibly-NaN numbers. -/
def jsLe (a b : JSNum) : Bool :=
  match a, b with
  | some x, some y => decide (x ≤ y)
  | _, _ => false

/-- JavaScript `>` on possibly-NaN numbers. -/
def jsGt (a b : JSNum) : Bool :=
  match a, b with
  | some x, some y => decide (y < x)
  | _, _ => false

/-- Whitespace characters recognized by the JavaScript string functions
modelled here. -/
def isJsWs (c : Char) : Bool :=
  c = ' ' ∨ c = '\t' ∨ c = '\n' ∨ c = '\r'

/-- Structural model of JavaScript `s.trim()`. -/
def jsTrim (s : String) : String :=
  String.mk (((s.data.dropWhile isJsWs).reverse.dropWhile isJsWs).reverse)

/-- Value of a list of decimal digit characters. -/
def digitsVal (ds : List Char) : Nat :=
  ds.foldl (fun acc c => acc * 10 + (c.toNat - 48)) 0

/-- Model of JavaScript `parseInt(s, 10)`: skip leading whitespace, read an
optional sign and then the maximal run of leading decimal digits; if that run
is empty the result is `NaN`. -/
def jsParseInt (s : String) : JSNum :=
  let cs := s.data.dropWhile isJsWs
  let signAndRest : Int × List Char :=
    match cs with
    | '-' :: rest => (-1, rest)
    | '+' :: rest => (1, rest)
    | rest => (1, rest)
  let ds := signAndRest.2.takeWhile Char.isDigit
  if ds.isEmpty then none
  else some (signAndRest.1 * (digitsVal ds : Int))

/-- Model of JavaScript `s.substring(a, b)` for `a <= b` (clamping at the
string's end, as `substring` does). -/
def jsSubstring (s : String) (a b : Nat) : String :=
  String.mk ((s.data.drop a).take (b - a))

/-- Days from 1970-01-01 to the proleptic-Gregorian civil date `y-m-d`
(`m` is 1-based), the standard days-from-civil algorithm. -/
def daysFromCivil (y m d : Int) : Int :=
  let y2 := y - (if m ≤ 2 then 1 else 0)
  let era := Int.fdiv y2 400
  let yoe := y2 - era * 400
  let mp := Int.emod (m + 9) 12
  let doy := Int.fdiv (153 * mp + 2) 5 + d - 1
  let doe := yoe * 365 + Int.fdiv yoe 4 - Int.fdiv yoe 100 + doy
  era * 146097 + doe - 719468

/-- Epoch milliseconds of the UTC instant with civil date `y-mo-d`
(1-based month) and time-of-day `h:mi:s`. -/
def utcInstant (y mo d h mi s : Int) : Int :=
  daysFromCivil y mo d * 86400000 + h * 3600000 + mi * 60000 + s * 1000

/-- Model of JavaScript `Date.UTC(year, month, day, hour, minute, second)`
(month 0-based): `NaN` in any argument gives `NaN`; out-of-range fields are
normalized by carrying, and a year in `0..99` is mapped to `1900..1999`. -/
def jsDateUTC (year month day hour minute second : JSNum) : JSNum :=
  match year, month, day, hour, minute, second with
  | some y, some m0, some d, some h, some mi, some s =>
      let ym := y + Int.fdiv m0 12
      let mn := Int.emod m0 12
      let yy := if 0 ≤ ym ∧ ym ≤ 99 then ym + 1900 else ym
      some (utcInstant yy (mn + 1) d h mi s)
  | _, _, _, _, _, _ => none

/-- Model of the regex `([+-])(\d2)(\d2)$` used for the timezone suffix:
returns the signed offset in minutes when the last five characters of `s`
are a sign followed by four digits. -/
def tzSuffix (s : String) : Option Int :=
  let cs := s.data
  match cs.drop (cs.length - 5) with
  | [c0, c1, c2, c3, c4] =>
      if (c0 = '+' ∨ c0 = '-') ∧ c1.isDigit ∧ c2.isDigit ∧ c3.isDigit ∧ c4.isDigit then
        let total : Int :=
          (((c1.toNat - 48) * 10 + (c2.toNat - 48)) * 60 +
            ((c3.toNat - 48) * 10 + (c4.toNat - 48)) : Nat)
        some (if c0 = '+' then total else -total)
      else none
  | _ => none

/-- Embedding of `parseXMLTVDateTime` (`xmltv-parser.ts` lines 168-199):
trim, read the six date/time fields positionally from the first 14
characters, look for a `±HHMM` suffix, build the instant with `Date.UTC`
and subtract the signed offset.  Never throws; malformed input flows
through as `NaN` (`none`). -/
def parseXMLTVDateTime (dateStr : String) : JSNum :=
  let cleanStr := jsTrim dateStr
  let dateTimePart := jsSubstring cleanStr 0 14
  let year := jsParseInt (jsSubstring dateTimePart 0 4)
  let month := (jsParseInt (jsSubstring dateTimePart 4 6)).map (· - 1)
  let day := jsParseInt (jsSubstring dateTimePart 6 8)
  let hour := jsParseInt (jsSubstring dateTimePart 8 10)
  let minute := jsParseInt (jsSubstring dateTimePart 10 12)
  let second := jsParseInt (jsSubstring dateTimePart 12 14)
  match tzSuffix cleanStr with
  | some offsetMin =>
      (jsDateUTC year month day hour minute second).map fun t => t - offsetMin * 60000
  | none => jsDateUTC year month day hour minute second


/-! ## XMLTV guide parsing (`xmltv-parser.ts`) -/

/-- Shape of a JavaScript value holding text content in the parsed XML
object: a bare string, an object carrying text under the `#text` key
(`none` when the key is absent), or an array of such values. -/
inductive JVal where
  | str (s : String)
  | obj (text : Option String)
  | arr (elems : List JVal)

/-- JavaScript truthiness of a `JVal`: only the empty string is falsy
(objects and arrays are always truthy). -/
def jvalTruthy : JVal → Bool
  | .str s => s ≠ ""
  | .obj _ => true
  | .arr _ => true

/-- JavaScript property access `v["#text"]`: defined only on objects. -/
def jvalText : JVal → Option String
  | .obj t => t
  | _ => none

/-- JavaScript truthiness of an optional string (`undefined` and `""` are
falsy). -/
def strTruthy : Option String → Bool
  | some s => s ≠ ""
  | none => false

/-- One `<programme>` element as delivered by the XML-to-object step
(`fast-xml-parser`): the three attributes and the nested text contents.
`none` models an absent attribute or child. -/
structure RawProgramme where
  channel : Option String
  start : Option String
  stop : Option String
  title : Option JVal
  desc : Option JVal
  category : Option JVal
  icon_src : Option String

/-- A parsed guide program as produced by `parseXMLTV`
(interface `EPGProgram` in `xmltv-parser.ts`). -/
structure EPGProgram where
  channel_id : String
  title : String
  description : Option String
  start_time : JSNum
  end_time : JSNum
  category : Option String
  icon_url : Option String
deriving Repr, DecidableEq

/-- Result of a guide parse (interface `ParseXMLTVResult`). -/
structure ParseXMLTVResult where
  programs : List EPGProgram
  errors : List String
deriving Repr, DecidableEq

/-- The array fallback of the title extraction (`xmltv-parser.ts` lines
101-104): a truthy first element is used, a string directly and anything
else through its `#text` key with `|| ""`. -/
def titleArrCase : JVal → String
  | .arr (f :: _) =>
      if jvalTruthy f then
        match f with
        | .str s => s
        | _ =>
            match jvalText f with
            | some s => s
            | none => ""
      else ""
  | _ => ""

/-- Embedding of the title extraction (`xmltv-parser.ts` lines 94-105):
`title` starts as `""`; a truthy `prog.title` is taken directly when it is
a string, else through a truthy `#text` key, else through the array
fallback. -/
def extractTitle : Option JVal → String
  | none => ""
  | some v =>
      if jvalTruthy v then
        match v with
        | .str s => s
        | _ =>
            match jvalText v with
            | some txt => if txt = "" then titleArrCase v else txt
            | none => titleArrCase v
      else ""

/-- The array fallback of the description extraction (lines 118-121):
no `|| ""` here, so an absent `#text` leaves the description undefined. -/
def descArrCase : JVal → Option String
  | .arr (f :: _) =>
      if jvalTruthy f then
        match f with
        | .str s => some s
        | _ => jvalText f
      else none
  | _ => none

/-- Embedding of the description extraction (`xmltv-parser.ts` lines
111-122). -/
def extractDesc : Option JVal → Option String
  | none => none
  | some v =>
      if jvalTruthy v then
        match v with
        | .str s => some s
        | _ =>
            match jvalText v with
            | some txt => if txt = "" then descArrCase v else some txt
            | none => descArrCase v
      else none

/-- Embedding of the category extraction (`xmltv-parser.ts` lines 124-132):
wrap a non-array in a singleton, then use a truthy first element. -/
def extractCategory : Option JVal → Option String
  | none => none
  | some v =>
      if jvalTruthy v then
        let first : Option JVal :=
          match v with
          | .arr l => l.head?
          | w => some w
        match first with
        | some c =>
            if jvalTruthy c then
              match c with
              | .str s => some s
              | _ => jvalText c
            else none
        | none => none
      else none

/-- Embedding of the `<programme>` loop of `parseXMLTV` (`xmltv-parser.ts`
lines 76-153).  An element missing its channel or either timestamp
attribute is skipped silently; the window filter drops elements that ended
before `now` or start after `maxTime` (both comparisons are false for NaN
timestamps); an element with no resolvable title is skipped. -/
def parseProgrammes (now maxTime : Int) : List RawProgramme → List EPGProgram
  | [] => []
  | prog :: rest =>
      let tail := parseProgrammes now maxTime rest
      match prog.channel, prog.start, prog.stop with
      | some ch, some st, some sp =>
          if ch = "" ∨ st = "" ∨ sp = "" then tail
          else
            let startTime := parseXMLTVDateTime st
            let endTime := parseXMLTVDateTime sp
            if jsLt endTime (some now) ∨ jsGt startTime (some maxTime) then tail
            else
              let title := extractTitle prog.title
              if title = "" then tail
              else
                { channel_id := ch
                  title := title
                  description := extractDesc prog.desc
                  start_time := startTime
                  end_time := endTime
                  category := extractCategory prog.category
                  icon_url :=
                    match prog.icon_src with
                    | some s => if s = "" then none else some s
                    | none => none } :: tail
      | _, _, _ => tail

/-- Embedding of `parseXMLTV` (`xmltv-parser.ts` lines 49-162) after the
XML-to-object step, with `Date.now()` passed as `now`.  No operation in the
loop body can throw (`parseXMLTVDateTime` is total and returns NaN on
malformed input), so the per-element catch that would append to `errors`
is unreachable and the errors list stays empty. -/
def parseXMLTV (programmes : List RawProgramme) (now : Int) : ParseXMLTVResult :=
  let maxTime := now + 48 * 60 * 60 * 1000
  { programs := parseProgrammes now maxTime programmes, errors := [] }


/-! ## M3U playlist parsing (`m3u-parser.ts`) -/

/-- A parsed playlist channel (interface `Channel` in `m3u-parser.ts`). -/
structure Channel where
  name : String
  url : String
  logo : Option String
  group : Option String
  tvg_id : Option String
deriving Repr, DecidableEq

/-- Result of a playlist parse (interface `ParseResult`). -/
structure ParseResult where
  channels : List Channel
  errors : List String
  epg_url : Option String
deriving Repr, DecidableEq

/-- The pending channel record built from an `#EXTINF` line
(`Partial<Channel>` in the source); `none` models an unset property. -/
structure PendingChannel where
  name : Option String
  logo : Option String
  group : Option String
  tvg_id : Option String
deriving Repr, DecidableEq

/-- Does `key` match the head of `cs`, case-insensitively when `ci`?
Returns the remainder after the key on a match. -/
def stripKeyCI (ci : Bool) : List Char → List Char → Option (List Char)
  | [], rest => some rest
  | _ :: _, [] => none
  | k :: ks, c :: cs =>
      if (if ci then k.toLower = c.toLower else k = c) then stripKeyCI ci ks cs
      else none

/-- Characters up to the next `"` quote, or `none` when the quote never
closes. -/
def takeToQuote : List Char → Option (List Char)
  | [] => none
  | c :: cs => if c = '"' then some [] else (takeToQuote cs).map (c :: ·)

/-- Model of matching the regex `key="([^"]*)"` against a line (the first
match wins), case-insensitive on the key when `ci` — the source uses the
`i` flag on `tvg-id`, `url-tvg` and `x-tvg-url` but not on `tvg-logo` and
`group-title`. -/
def findAttrValue (ci : Bool) (key : List Char) : List Char → Option String
  | [] => none
  | c :: cs =>
      match stripKeyCI ci (key ++ ['=', '"']) (c :: cs) with
      | some rest =>
          match takeToQuote rest with
          | some v => some (String.mk v)
          | none => none
      | none => findAttrValue ci key cs

/-- The substring after the last comma of `s` (`lastIndexOf` plus
`substring` in the source), `none` when the line has no comma. -/
def afterLastComma (s : String) : Option String :=
  let cs := s.data
  if cs.contains ',' then
    some (String.mk ((cs.reverse.takeWhile (· ≠ ',')).reverse))
  else none

/-- Structural model of JavaScript `s.startsWith(p)`. -/
def jsStartsWith (s p : String) : Bool :=
  decide (p.data <+: s.data)

/-- An optional string collapsed to `none` when empty, mirroring the
JavaScript truthiness checks `if (m && m[1])` and `x || null`. -/
def nonEmptyOpt : Option String → Option String
  | some s => if s = "" then none else some s
  | none => none

/-- Embedding of `extractEpgUrl` (`m3u-parser.ts` lines 147-161): try
`url-tvg` first and fall back to `x-tvg-url`, in each case only a
non-empty captured value counts. -/
def extractEpgUrl (headerLine : String) : Option String :=
  match nonEmptyOpt (findAttrValue true "url-tvg".data headerLine.data) with
  | some v => some v
  | none => nonEmptyOpt (findAttrValue true "x-tvg-url".data headerLine.data)

/-- Embedding of `parseExtinf` (`m3u-parser.ts` lines 167-195): the display
name is the trimmed substring after the last comma; `tvg-id` is kept only
when non-empty, while `tvg-logo` and `group-title` are kept even when the
captured value is empty. -/
def parseExtinf (line : String) : PendingChannel :=
  { name := (afterLastComma line).map jsTrim
    logo := findAttrValue false "tvg-logo".data line.data
    group := findAttrValue false "group-title".data line.data
    tvg_id := nonEmptyOpt (findAttrValue true "tvg-id".data line.data) }

/-- Model of `isValidUrl` (`m3u-parser.ts` lines 200-207), which accepts a
string exactly when the WHATWG `URL` constructor accepts it with an `http`
or `https` scheme; the host shape itself is irrelevant to the parse logic,
so a non-empty remainder after the scheme stands in for it. -/
def isValidUrl (s : String) : Bool :=
  (jsStartsWith s "http://" && decide (7 < s.data.length)) ||
    (jsStartsWith s "https://" && decide (8 < s.data.length))

/-- Embedding of the line loop of `parseM3U` (`m3u-parser.ts` lines
107-132), `i` being the 0-based index of the current line.  Blank lines
and comments other than `#EXTINF` are skipped; an `#EXTINF` line replaces
the pending record; any other line is consumed only when a pending record
exists and the line is a valid URL, completing a channel when the pending
name is usable and otherwise appending the skip warning; no warning is
produced for a pending record that never meets a URL line. -/
def parseM3ULines : Nat → Option PendingChannel → List String → List Channel × List String
  | _, _, [] => ([], [])
  | i, cur, line :: rest =>
      if line = "" ∨ (jsStartsWith line "#" ∧ ¬ jsStartsWith line "#EXTINF") then
        parseM3ULines (i + 1) cur rest
      else if jsStartsWith line "#EXTINF" then
        parseM3ULines (i + 1) (some (parseExtinf line)) rest
      else
        match cur with
        | some pc =>
            if isValidUrl line then
              let tail := parseM3ULines (i + 1) none rest
              match pc.name with
              | some n =>
                  if n = "" then
                    (tail.1, ("Skipped channel with missing data at line " ++ toString (i + 1)) :: tail.2)
                  else
                    ({ name := n, url := line, logo := pc.logo, group := pc.group,
                       tvg_id := pc.tvg_id } :: tail.1, tail.2)
              | none =>
                  (tail.1, ("Skipped channel with missing data at line " ++ toString (i + 1)) :: tail.2)
            else parseM3ULines (i + 1) cur rest
        | none => parseM3ULines (i + 1) cur rest

/-- Structural model of JavaScript `content.split("\n")`. -/
def splitNewlines (s : String) : List String :=
  (splitAux s.data []).reverse
where
  splitAux : List Char → List Char → List String
    | [], acc => [String.mk acc.reverse]
    | c :: cs, acc =>
        if c = '\n' then
          splitAux cs [] ++ [String.mk acc.reverse]
        else splitAux cs (c :: acc)

/-- Embedding of `parseM3U` (`m3u-parser.ts` lines 75-141) applied to the
fetched body (the fetch itself and its failure path are outside this
model): split into trimmed lines, require the `#EXTM3U` header, read the
guide address from the header line, then run the line loop from index 1. -/
def parseM3U (content : String) : ParseResult :=
  let lines := (splitNewlines content).map jsTrim
  match lines with
  | [] => { channels := [], errors := ["Invalid M3U file: missing #EXTM3U header"], epg_url := none }
  | l0 :: rest =>
      if ¬ jsStartsWith l0 "#EXTM3U" then
        { channels := [], errors := ["Invalid M3U file: missing #EXTM3U header"], epg_url := none }
      else
        let parsed := parseM3ULines 1 none rest
        { channels := parsed.1, errors := parsed.2, epg_url := extractEpgUrl l0 }


/-! ## EPG storage and freshness cache (`db/queries.ts`, `routes/epg.ts`) -/

/-- A row of `epg_sources` (interface `EPGSource` in `queries.ts`);
`last_fetched` is `NULL` (`none`) until the first fetch attempt. -/
structure EPGSource where
  id : String
  playlist_id : String
  epg_url : String
  last_fetched : JSNum
  last_modified : Option String
  etag : Option String
  fetch_error : Option String
  created_at : Int
  updated_at : Int
deriving Repr, DecidableEq

/-- A row of `epg_programs` (interface `EPGProgramDB` in `queries.ts`). -/
structure EPGProgramRow where
  id : String
  epg_source_id : String
  channel_id : String
  title : String
  description : Option String
  start_time : JSNum
  end_time : JSNum
  category : Option String
  icon_url : Option String
  created_at : Int
deriving Repr, DecidableEq

/-- The externally visible steps a refresh cycle performs, recorded in
order: the upstream guide fetch and the four database writes. -/
inductive DBEvent where
  | fetchGuide (url : String)
  | pruneOld (sourceId : String)
  | clearAll (sourceId : String)
  | bulkInsert (sourceId : String) (count : Nat)
  | stampFetch (sourceId : String)
  | rebindSource (sourceId : String)
  | createSource (sourceId : String)
deriving Repr, DecidableEq

/-- The database state: the two tables, a fresh-id counter modelling
`generateUUID`, and the event trace. -/
structure DBState where
  sources : List EPGSource
  programs : List EPGProgramRow
  nextId : Nat
  events : List DBEvent
deriving Repr, DecidableEq

/-- Fresh row id number `n` (models `generateUUID`). -/
def freshId (n : Nat) : String := "uuid-" ++ toString n

/-- Append one event to the trace. -/
def logEvent (st : DBState) (e : DBEvent) : DBState :=
  { st with events := st.events ++ [e] }

/-- Embedding of `shouldRefreshEPG` (`queries.ts` lines 774-779) with
`Date.now()` passed as `now`.  `!source.last_fetched` is a JavaScript
falsiness test, true for `null` and also for the timestamp `0`. -/
def shouldRefreshEPG (source : EPGSource) (now : Int) : Bool :=
  match source.last_fetched with
  | none => true
  | some t => t = 0 ∨ t < now - 60 * 60 * 1000

/-- The row update performed by `updateEPGSourceFetch` on the matching
source row. -/
def updateSourceRow (sourceId : String) (lastModified etag fetchError : Option String)
    (now : Int) (s : EPGSource) : EPGSource :=
  if s.id = sourceId then
    { s with last_fetched := some now, last_modified := lastModified, etag := etag,
             fetch_error := fetchError, updated_at := now }
  else s

/-- Embedding of `updateEPGSourceFetch` (`queries.ts` lines 754-769):
one UPDATE setting `last_fetched`, `last_modified`, `etag`, `fetch_error`
and `updated_at` on the row with the given id. -/
def updateEPGSourceFetch (st : DBState) (sourceId : String)
    (lastModified etag fetchError : Option String) (now : Int) : DBState :=
  { st with sources := st.sources.map (updateSourceRow sourceId lastModified etag fetchError now),
            events := st.events ++ [DBEvent.stampFetch sourceId] }

/-- Embedding of `cleanupOldPrograms` (`queries.ts` lines 914-920):
DELETE the source's programs whose `end_time` is below `now` minus one
hour. -/
def cleanupOldPrograms (st : DBState) (sourceId : String) (now : Int) : DBState :=
  { st with
    programs :=
      st.programs.filter
        (fun p => ¬ (p.epg_source_id = sourceId ∧ jsLt p.end_time (some (now - 60 * 60 * 1000)))),
    events := st.events ++ [DBEvent.pruneOld sourceId] }

/-- Embedding of `clearEPGPrograms` (`queries.ts` lines 784-786): DELETE
every program row of the source. -/
def clearEPGPrograms (st : DBState) (sourceId : String) : DBState :=
  { st with programs := st.programs.filter (fun p => ¬ p.epg_source_id = sourceId),
            events := st.events ++ [DBEvent.clearAll sourceId] }

/-- The row built for one inserted program (`insertEPGPrograms`, `queries.ts`
lines 791-834); `prog.description || null` collapses an empty string to
`NULL`, and likewise for category and icon. -/
def programRow (sourceId : String) (n : Nat) (now : Int) (prog : EPGProgram) : EPGProgramRow :=
  { id := freshId n, epg_source_id := sourceId, channel_id := prog.channel_id,
    title := prog.title, description := nonEmptyOpt prog.description,
    start_time := prog.start_time, end_time := prog.end_time,
    category := nonEmptyOpt prog.category, icon_url := nonEmptyOpt prog.icon_url,
    created_at := now }

/-- The rows built for a batch insert, ids drawn from the counter in
order. -/
def rowsFor (sourceId : String) : Nat → Int → List EPGProgram → List EPGProgramRow
  | _, _, [] => []
  | n, now, p :: ps => programRow sourceId n now p :: rowsFor sourceId (n + 1) now ps

/-- Embedding of `insertEPGPrograms` (`queries.ts` lines 791-834): the rows
are appended in input order (the chunking into batches of 100 preserves
order and is invisible at this level); with an empty input the function
returns before any database write. -/
def insertEPGPrograms (st : DBState) (sourceId : String) (progs : List EPGProgram)
    (now : Int) : DBState :=
  { st with programs := st.programs ++ rowsFor sourceId st.nextId now progs,
            nextId := st.nextId + progs.length,
            events := st.events ++ [DBEvent.bulkInsert sourceId progs.length] }

/-- The URL rebinding performed on the row with the given id (the UPDATE
of `getOrCreateEPGSource` when the stored URL differs): binds the new
URL, resets the freshness state to never-fetched, and clears the
error. -/
def rebindRow (epgUrl : String) (now : Int) (tid : String) (s : EPGSource) : EPGSource :=
  if s.id = tid then
    { s with epg_url := epgUrl, updated_at := now, last_fetched := none, fetch_error := none }
  else s

/-- The row INSERTed by `getOrCreateEPGSource` for a playlist seen for the
first time: never fetched, no validators, no error. -/
def newSource (playlistId epgUrl : String) (now : Int) (n : Nat) : EPGSource :=
  { id := freshId n, playlist_id := playlistId, epg_url := epgUrl, last_fetched := none,
    last_modified := none, etag := none, fetch_error := none, created_at := now,
    updated_at := now }

/-- Embedding of `getOrCreateEPGSource` (`queries.ts` lines 690-734):
look the source up by playlist; rebind the URL and clear the freshness
state when the stored URL differs; create the row when absent. -/
def getOrCreateEPGSource (st : DBState) (playlistId epgUrl : String) (now : Int) :
    DBState × EPGSource :=
  match st.sources.find? (fun s => s.playlist_id = playlistId) with
  | some existing =>
      if existing.epg_url = epgUrl then (st, existing)
      else
        ({ st with sources := st.sources.map (rebindRow epgUrl now existing.id),
                   events := st.events ++ [DBEvent.rebindSource existing.id] },
          { existing with epg_url := epgUrl, updated_at := now, last_fetched := none,
                          fetch_error := none })
  | none =>
      ({ st with sources := st.sources ++ [newSource playlistId epgUrl now st.nextId],
                 nextId := st.nextId + 1,
                 events := st.events ++ [DBEvent.createSource (freshId st.nextId)] },
        newSource playlistId epgUrl now st.nextId)

/-- JavaScript `errors.join("; ")`. -/
def joinSemi : List String → String
  | [] => ""
  | [x] => x
  | x :: xs => x ++ "; " ++ joinSemi xs

/-- Return shape of `refreshEPGIfNeeded`. -/
structure RefreshResult where
  source : Option EPGSource
  refreshed : Bool
  error : Option String
deriving Repr, DecidableEq

/-- Embedding of `refreshEPGIfNeeded` (`routes/epg.ts` lines 1102-1135 of
the concatenated `queries.ts`/`epg.ts` sources): get-or-create the source,
return at once when fresh, otherwise fetch and parse the guide (the parse
result is passed in as `fetched` and the fetch is recorded as an event);
on total failure record the reason on the source and return; on success
prune, clear, bulk-insert and stamp, in that order.  All `Date.now()`
calls of one invocation are modelled as the same instant `now`. -/
def refreshEPGIfNeeded (st : DBState) (playlistId epgUrl : String) (now : Int)
    (fetched : ParseXMLTVResult) : DBState × RefreshResult :=
  let got := getOrCreateEPGSource st playlistId epgUrl now
  let st1 := got.1
  let source := got.2
  if ¬ shouldRefreshEPG source now then
    (st1, { source := some source, refreshed := false, error := none })
  else
    let st2 := logEvent st1 (DBEvent.fetchGuide epgUrl)
    if fetched.programs.length = 0 ∧ 0 < fetched.errors.length then
      let msg := joinSemi fetched.errors
      (updateEPGSourceFetch st2 source.id none none (some msg) now,
        { source := some source, refreshed := false, error := some msg })
    else
      let st3 := cleanupOldPrograms st2 source.id now
      let st4 := clearEPGPrograms st3 source.id
      let st5 := insertEPGPrograms st4 source.id fetched.programs now
      let st6 := updateEPGSourceFetch st5 source.id none none none now
      (st6, { source := some { source with last_fetched := some now }, refreshed := true,
              error := none })

/-! ## Now/next matcher (`getNowNextPrograms`, `queries.ts` lines 839-884) -/

/-- One value of the now/next map: the currently airing and the upcoming
program for a channel (`{ now?: EPGProgramDB; next?: EPGProgramDB }`). -/
structure NowNextEntry where
  now : Option EPGProgramRow
  next : Option EPGProgramRow
deriving Repr, DecidableEq

/-- Lookup in the JavaScript record modelled as an association list. -/
def mapFind : List (String × NowNextEntry) → String → Option NowNextEntry
  | [], _ => none
  | (k, v) :: rest, key => if k = key then some v else mapFind rest key

/-- Update (or append) one key of the record. -/
def mapPut : List (String × NowNextEntry) → String → NowNextEntry → List (String × NowNextEntry)
  | [], key, v => [(key, v)]
  | (k, w) :: rest, key, v =>
      if k = key then (k, v) :: rest else (k, w) :: mapPut rest key v

/-- The `ORDER BY channel_id, start_time` key: channels by string order,
times with `NULL`/NaN first. -/
def rowLE (a b : EPGProgramRow) : Bool :=
  if a.channel_id = b.channel_id then
    match a.start_time, b.start_time with
    | none, _ => true
    | some _, none => false
    | some x, some y => decide (x ≤ y)
  else decide (a.channel_id < b.channel_id)

/-- Insertion into a list sorted by `rowLE`. -/
def insertSorted (r : EPGProgramRow) : List EPGProgramRow → List EPGProgramRow
  | [] => [r]
  | x :: xs => if rowLE x r then x :: insertSorted r xs else r :: x :: xs

/-- Deterministic model of the SQL `ORDER BY channel_id, start_time`. -/
def sortRows : List EPGProgramRow → List EPGProgramRow
  | [] => []
  | x :: xs => insertSorted x (sortRows xs)

/-- The condition `prog.start_time <= now && prog.end_time > now` of the
scan loop: the program is airing at `now`. -/
def isCurrentAt (now : Int) (p : EPGProgramRow) : Bool :=
  jsLe p.start_time (some now) && jsGt p.end_time (some now)

/-- The condition `prog.start_time > now` of the scan loop: the program
starts strictly after `now`. -/
def startsAfter (now : Int) (p : EPGProgramRow) : Bool :=
  jsGt p.start_time (some now)

/-- The per-row update of the scan loop (`queries.ts` lines 868-881): a
row covering `now` always overwrites the `now` slot; a row starting after
`now` fills the `next` slot only when it is still empty. -/
def stepEntry (now : Int) (e : NowNextEntry) (p : EPGProgramRow) : NowNextEntry :=
  if isCurrentAt now p then { e with now := some p }
  else if startsAfter now p ∧ e.next = none then { e with next := some p }
  else e

/-- The scan of one channel's run of rows, starting from entry `e`. -/
def chanScan (now : Int) (e : NowNextEntry) : List EPGProgramRow → NowNextEntry
  | [] => e
  | p :: ps => chanScan now (stepEntry now e p) ps

/-- The last element of the list satisfying `p`, if any. -/
def lastWhere (p : EPGProgramRow → Bool) : List EPGProgramRow → Option EPGProgramRow
  | [] => none
  | x :: xs =>
      match lastWhere p xs with
      | some y => some y
      | none => if p x then some x else none

/-- The scan loop of `getNowNextPrograms` over the retrieved rows: each
row materializes its channel's entry and then applies `stepEntry` to it. -/
def nowNextFold (now : Int) : List (String × NowNextEntry) → List EPGProgramRow →
    List (String × NowNextEntry)
  | acc, [] => acc
  | acc, p :: rest =>
      let e := (mapFind acc p.channel_id).getD { now := none, next := none }
      nowNextFold now (mapPut acc p.channel_id (stepEntry now e p)) rest

/-- The SQL retrieval of `getNowNextPrograms`: the source's rows for the
requested channels that have not yet ended, ordered by
`(channel_id, start_time)`. -/
def retrievedRows (st : DBState) (sourceId : String) (channelIds : List String)
    (now : Int) : List EPGProgramRow :=
  sortRows (st.programs.filter fun p =>
    p.epg_source_id = sourceId ∧ channelIds.contains p.channel_id ∧
      jsGt p.end_time (some now))

/-- Embedding of `getNowNextPrograms` (`queries.ts` lines 839-884): empty
channel list short-circuits to an empty map; otherwise one linear pass
over the retrieved rows. -/
def getNowNextPrograms (st : DBState) (sourceId : String) (channelIds : List String)
    (now : Int) : List (String × NowNextEntry) :=
  if channelIds.isEmpty then []
  else nowNextFold now [] (retrievedRows st sourceId channelIds now)

/-! ## Enrichment merge (`routes/channels.ts` lines 80-84) -/

/-- A channel as serialized by the channels route: the parsed channel plus
the optional `epg` field. -/
structure ChannelOut where
  name : String
  url : String
  logo : Option String
  group : Option String
  tvg_id : Option String
  epg : Option NowNextEntry
deriving Repr, DecidableEq

/-- Embedding of the merge `channelsWithEPG` (`routes/channels.ts` lines
80-84): spread the channel and attach `epg` exactly when `ch.tvg_id` is
truthy (present and non-empty) and the map has an entry for it. -/
def channelsWithEPG (channels : List Channel) (epgData : List (String × NowNextEntry)) :
    List ChannelOut :=
  channels.map fun ch =>
    { name := ch.name, url := ch.url, logo := ch.logo, group := ch.group,
      tvg_id := ch.tvg_id,
      epg :=
        match ch.tvg_id with
        | some t => if t = "" then none else mapFind epgData t
        | none => none }

/-! ## Concrete instances used by witnesses and counterexamples -/

/-- The content part of a parsed program row: the fields that come from
the guide parse (everything except the generated row id, the owning
source and `created_at`). -/
def rowContent (r : EPGProgramRow) : EPGProgram :=
  { channel_id := r.channel_id, title := r.title, description := r.description,
    start_time := r.start_time, end_time := r.end_time, category := r.category,
    icon_url := r.icon_url }

/-- An empty database. -/
def emptyDB : DBState := { sources := [], programs := [], nextId := 0, events := [] }

/-- A guide source fetched 30 minutes before the instant 7200000. -/
def exSource30 : EPGSource :=
  { id := "s1", playlist_id := "p1", epg_url := "http://g.example/e", last_fetched := some 5400000,
    last_modified := none, etag := none, fetch_error := none, created_at := 0, updated_at := 0 }

/-- A parse result with one well-formed program. -/
def exParse1 : ParseXMLTVResult :=
  { programs := [{ channel_id := "c", title := "T", description := none,
                   start_time := some 7000000, end_time := some 7500000, category := none,
                   icon_url := none }],
    errors := [] }

/-- A parse result with no programs and one error. -/
def exParseFail : ParseXMLTVResult :=
  { programs := [], errors := ["Failed to fetch XMLTV: 500 Internal Server Error"] }

/-- A `<programme>` element whose timestamps are unparseable. -/
def badTimeProgramme : RawProgramme :=
  { channel := some "c1", start := some "garbage", stop := some "garbage",
    title := some (.str "Show"), desc := none, category := none, icon_src := none }

/-- Scenario B feed: header, two well-formed entries, and one metadata
line not followed by a URL line. -/
def feedB : String :=
  "#EXTM3U\n#EXTINF:-1,Alpha\nhttp://a.example/s\n#EXTINF:-1,Beta\nhttp://b.example/s\n#EXTINF:-1,Gamma"

/-- A feed whose third entry has a URL but no usable name (no comma on the
metadata line). -/
def feedNoName : String :=
  "#EXTM3U\n#EXTINF:-1,Alpha\nhttp://a.example/s\n#EXTINF:-1 tvg-id=\"g\"\nhttp://g.example/s\n#EXTINF:-1,Beta\nhttp://b.example/s"

/-- A header line carrying `x-tvg-url` before `url-tvg`. -/
def headerBoth : String := "#EXTM3U x-tvg-url=\"http://x\" url-tvg=\"http://u\""

/-- Program `[0, 100)` on channel `c`. -/
def rowA : EPGProgramRow :=
  { id := "a", epg_source_id := "s1", channel_id := "c", title := "A", description := none,
    start_time := some 0, end_time := some 100, category := none, icon_url := none,
    created_at := 0 }

/-- Program `[10, 90)` on channel `c`, overlapping `rowA`. -/
def rowB : EPGProgramRow :=
  { id := "b", epg_source_id := "s1", channel_id := "c", title := "B", description := none,
    start_time := some 10, end_time := some 90, category := none, icon_url := none,
    created_at := 0 }

/-- A database holding the two overlapping programs. -/
def overlapDB : DBState :=
  { sources := [], programs := [rowA, rowB], nextId := 0, events := [] }

/-- A channel without a guide-channel id. -/
def exChannelNoTvg : Channel :=
  { name := "A", url := "http://a.example/s", logo := none, group := none, tvg_id := none }

/-- An arbitrary now/next map entry. -/
def exEntry : NowNextEntry := { now := some rowA, next := some rowB }

/-! ## Claim theorems -/

/-- C3: a guide source is stale exactly when `last_fetched` is absent or
more than one hour older than `now`; in particular `last_fetched =
now - 30min` is not stale, `now - 90min` is stale, and absent is stale.
The hypothesis `3600000 < now` says the clock reads an instant at least
one hour past the epoch (true of every real `Date.now()` value); it is
needed because the source's `!source.last_fetched` falsiness test also
fires on the timestamp `0`. -/
theorem C3_staleness_window (s : EPGSource) (now : Int) (h : 3600000 < now) :
    (shouldRefreshEPG s now = true ↔
      (s.last_fetched = none ∨ ∃ t, s.last_fetched = some t ∧ t < now - 3600000)) ∧
    (s.last_fetched = some (now - 1800000) → shouldRefreshEPG s now = false) ∧
    (s.last_fetched = some (now - 5400000) → shouldRefreshEPG s now = true) ∧
    (s.last_fetched = none → shouldRefreshEPG s now = true) := by
  cases hl : s.last_fetched with
  | none => simp [shouldRefreshEPG, hl]
  | some t => refine ⟨?_, ?_, ?_, ?_⟩ <;> simp [shouldRefreshEPG, hl] <;> omega

/-- Witness for C3: a source fetched 30 minutes before the instant
7200000 is not stale. -/
theorem C3_staleness_window_witness : shouldRefreshEPG exSource30 7200000 = false :=
  (C3_staleness_window exSource30 7200000 (by decide)).2.1 (by decide)

/-- C5: guide timestamp parsing reads the 14 digit fields positionally as
a wall-clock time in the stated zone (UTC when there is no zone suffix)
and converts to an absolute UTC instant by subtracting the signed offset:
`"20240101120000 +0200"` parses to 2024-01-01T10:00:00Z (epoch
milliseconds 1704103200000) and `"20240101120000"` parses to
2024-01-01T12:00:00Z (1704110400000). -/
theorem C5_timestamp_instants :
    parseXMLTVDateTime "20240101120000 +0200" = some (utcInstant 2024 1 1 10 0 0) ∧
    utcInstant 2024 1 1 10 0 0 = 1704103200000 ∧
    parseXMLTVDateTime "20240101120000" = some (utcInstant 2024 1 1 12 0 0) ∧
    utcInstant 2024 1 1 12 0 0 = 1704110400000 := by decide

/-- C6: contrary to the claim (and to the spec's stated error policy), a
programme element whose start/stop timestamps are unparseable is neither
skipped nor recorded as a warning: `parseXMLTVDateTime` returns NaN
instead of throwing, both window-filter comparisons on NaN are false, and
the element is emitted as a program with NaN timestamps while the errors
list stays empty. -/
theorem C6_unparseable_timestamp_emitted :
    parseXMLTVDateTime "garbage" = none ∧
    parseXMLTV [badTimeProgramme] 1704103200000 =
      { programs := [{ channel_id := "c1", title := "Show", description := none,
                       start_time := none, end_time := none, category := none,
                       icon_url := none }],
        errors := [] } := by decide

/-- C7 counterexample: on a feed with a valid header, two well-formed
entries and one trailing metadata line not followed by a URL line, the
parser returns 2 channels but 0 errors, not the claimed 1: the dangling
metadata line is dropped silently. -/
theorem C7_counterexample :
    (parseM3U feedB).channels.length = 2 ∧ ¬ (parseM3U feedB).errors.length = 1 := by decide

/-- C7 amended: a metadata line not followed by a URL line contributes no
channel and no warning (2 channels, 0 errors on the scenario feed); the
warning naming the line number is appended, and parsing continues, only
when a valid URL line completes a pending metadata record that lacks a
usable name. -/
theorem C7_amended :
    (parseM3U feedB).channels.map Channel.name = ["Alpha", "Beta"] ∧
    (parseM3U feedB).errors = [] ∧
    (parseM3U feedNoName).channels.map Channel.name = ["Alpha", "Beta"] ∧
    (parseM3U feedNoName).errors = ["Skipped channel with missing data at line 5"] := by decide

/-- C8 counterexample: on a header line carrying `x-tvg-url` first and
`url-tvg` second, the returned guide address is the `url-tvg` value, not
the value of the attribute that occurs first on the line. -/
theorem C8_counterexample :
    extractEpgUrl headerBoth = some "http://u" ∧
    ¬ extractEpgUrl headerBoth = some "http://x" := by decide

/-- C8 amended: `guide_url` is the value of `url-tvg` whenever that
attribute is present with a non-empty value, regardless of its position
on the line; otherwise the non-empty value of `x-tvg-url` if present;
otherwise absent. -/
theorem C8_amended :
    extractEpgUrl headerBoth = some "http://u" ∧
    extractEpgUrl "#EXTM3U x-tvg-url=\"http://x\"" = some "http://x" ∧
    extractEpgUrl "#EXTM3U url-tvg=\"http://u\"" = some "http://u" ∧
    extractEpgUrl "#EXTM3U" = none ∧
    extractEpgUrl "#EXTM3U url-tvg=\"\" x-tvg-url=\"http://x\"" = some "http://x" := by decide

/-- C9: the enrichment merge produces one output record per channel in
order; a channel whose `tvg_id` is absent or empty gets no `epg` field
regardless of the map's contents, and every other field is copied
unchanged. -/
theorem C9_enrichment_merge (chs : List Channel) (m : List (String × NowNextEntry)) :
    (channelsWithEPG chs m).length = chs.length ∧
    ∀ (i : Nat) (c : Channel), chs[i]? = some c →
      ∃ out, (channelsWithEPG chs m)[i]? = some out ∧
        out.name = c.name ∧ out.url = c.url ∧ out.logo = c.logo ∧
        out.group = c.group ∧ out.tvg_id = c.tvg_id ∧
        ((c.tvg_id = none ∨ c.tvg_id = some "") → out.epg = none) := by
  constructor
  · simp [channelsWithEPG]
  · intro i c hc
    refine ⟨{ name := c.name, url := c.url, logo := c.logo, group := c.group,
              tvg_id := c.tvg_id,
              epg := match c.tvg_id with
                     | some t => if t = "" then none else mapFind m t
                     | none => none },
            ?_, rfl, rfl, rfl, rfl, rfl, ?_⟩
    · simp [channelsWithEPG, List.getElem?_map, hc]
    · rintro (h | h) <;> simp [h]

/-- Witness for C9: a channel without a guide-channel id is merged with no
`epg` field even against a non-empty map. -/
theorem C9_enrichment_merge_witness :
    ∃ out, (channelsWithEPG [exChannelNoTvg] [("x", exEntry)])[0]? = some out ∧
      out.name = exChannelNoTvg.name ∧ out.url = exChannelNoTvg.url ∧
      out.logo = exChannelNoTvg.logo ∧ out.group = exChannelNoTvg.group ∧
      out.tvg_id = exChannelNoTvg.tvg_id ∧
      ((exChannelNoTvg.tvg_id = none ∨ exChannelNoTvg.tvg_id = some "") → out.epg = none) :=
  (C9_enrichment_merge [exChannelNoTvg] [("x", exEntry)]).2 0 exChannelNoTvg rfl

/-- Looking a key up after a `mapPut`. -/
theorem mapFind_mapPut (m : List (String × NowNextEntry)) (k k2 : String) (v : NowNextEntry) :
    mapFind (mapPut m k v) k2 = if k = k2 then some v else mapFind m k2 := by
  induction m with
  | nil => simp [mapPut, mapFind]
  | cons hd tl ih =>
      obtain ⟨a, b⟩ := hd
      by_cases hak : a = k <;> by_cases hk2 : k = k2 <;>
        simp_all [mapPut, mapFind]

/-- The scan loop decomposed per channel: the final entry of channel `c`
is the `chanScan` of the rows of `c`, started from the entry the
accumulator already holds (a channel with no row and no prior entry stays
absent). -/
theorem nowNextFold_mapFind (now : Int) (rows : List EPGProgramRow)
    (acc : List (String × NowNextEntry)) (c : String) :
    mapFind (nowNextFold now acc rows) c =
      match mapFind acc c with
      | some e => some (chanScan now e (rows.filter (fun p => p.channel_id = c)))
      | none =>
          if rows.filter (fun p => p.channel_id = c) = [] then none
          else some (chanScan now { now := none, next := none }
            (rows.filter (fun p => p.channel_id = c))) := by
  induction rows generalizing acc with
  | nil => cases h : mapFind acc c <;> simp [nowNextFold, chanScan, h]
  | cons p rest ih =>
      simp only [nowNextFold]
      rw [ih, mapFind_mapPut]
      by_cases hpc : p.channel_id = c
      · subst hpc
        cases h : mapFind acc p.channel_id with
        | some e => simp [h, List.filter_cons, chanScan]
        | none => simp [h, List.filter_cons, chanScan]
      · cases h : mapFind acc c <;> simp [h, hpc, List.filter_cons]

/-- After the scan, the `now` slot holds the last row of the run that is
airing at `now` (or the starting entry's slot when none is). -/
theorem chanScan_now_eq (now : Int) (e : NowNextEntry) (L : List EPGProgramRow) :
    (chanScan now e L).now =
      match lastWhere (isCurrentAt now) L with
      | some q => some q
      | none => e.now := by
  induction L generalizing e with
  | nil => simp [chanScan, lastWhere]
  | cons p ps ih =>
      simp only [chanScan, lastWhere]
      rw [ih]
      cases h : lastWhere (isCurrentAt now) ps with
      | some q => rfl
      | none =>
          by_cases hc : isCurrentAt now p = true
          · simp [hc, stepEntry]
          · unfold stepEntry
            rw [if_neg hc]
            by_cases hsa : startsAfter now p = true ∧ e.next = none
            · rw [if_pos hsa]
              simp [hc]
            · rw [if_neg hsa]
              simp [hc]

/-- A program airing at `now` does not start strictly after `now`. -/
theorem current_not_startsAfter (now : Int) (p : EPGProgramRow)
    (h : isCurrentAt now p = true) : startsAfter now p = false := by
  cases hs : p.start_time <;>
    simp [isCurrentAt, startsAfter, jsLe, jsGt, hs] at h ⊢
  omega

/-- After the scan, the `next` slot holds the starting entry's value if it
was already set, and otherwise the first row of the run starting strictly
after `now`. -/
theorem chanScan_next_eq (now : Int) (e : NowNextEntry) (L : List EPGProgramRow) :
    (chanScan now e L).next =
      match e.next with
      | some x => some x
      | none => L.find? (startsAfter now) := by
  induction L generalizing e with
  | nil => cases hn : e.next <;> simp [chanScan, hn]
  | cons p ps ih =>
      simp only [chanScan]
      rw [ih]
      cases hn : e.next with
      | some x =>
          have hstep : (stepEntry now e p).next = some x := by
            unfold stepEntry
            split
            · exact hn
            · simp [hn]
          simp [hstep]
      | none =>
          by_cases hc : isCurrentAt now p = true
          · have hsa := current_not_startsAfter now p hc
            have hstep : (stepEntry now e p).next = none := by
              unfold stepEntry
              rw [if_pos hc]
              exact hn
            simp [hstep, List.find?_cons, hsa]
          · by_cases hsa : startsAfter now p = true
            · have hstep : (stepEntry now e p).next = some p := by
                unfold stepEntry
                rw [if_neg hc, if_pos ⟨hsa, hn⟩]
              simp [hstep, List.find?_cons, hsa]
            · have hsa2 : startsAfter now p = false := by
                simpa using hsa
              have hstep : (stepEntry now e p).next = none := by
                unfold stepEntry
                rw [if_neg hc]
                rw [if_neg (by simp [hsa2])]
                exact hn
              simp [hstep, List.find?_cons, hsa2]

/-- C4 amended: for every stored program set and timestamp `now`, the
matcher scans each requested channel's retrieved rows (those with
`end_time > now`, in ascending `(channel_id, start_time)` order) and
returns as `now` the LAST program of the run satisfying
`start_time <= now < end_time` (equal to the first exactly when at most
one program covers `now`), and as `next` the first program with
`start_time > now`; a channel with no retrieved row is absent from the
output map rather than an error. -/
theorem C4_amended (st : DBState) (sourceId : String) (channelIds : List String)
    (now : Int) (c : String) :
    mapFind (getNowNextPrograms st sourceId channelIds now) c =
      (if (retrievedRows st sourceId channelIds now).filter (fun p => p.channel_id = c) = []
       then none
       else some
         { now := lastWhere (isCurrentAt now)
             ((retrievedRows st sourceId channelIds now).filter (fun p => p.channel_id = c)),
           next := ((retrievedRows st sourceId channelIds now).filter
             (fun p => p.channel_id = c)).find? (startsAfter now) }) := by
  unfold getNowNextPrograms
  by_cases hids : channelIds.isEmpty
  · have hempty : retrievedRows st sourceId channelIds now = [] := by
      have hnil : channelIds = [] := by
        simpa [List.isEmpty_iff] using hids
      unfold retrievedRows
      subst hnil
      have : st.programs.filter
          (fun p => decide (p.epg_source_id = sourceId ∧ ([] : List String).contains p.channel_id ∧
            jsGt p.end_time (some now) = true)) = [] := by
        apply List.filter_eq_nil_iff.mpr
        intro a _
        simp
      simp_all [sortRows]
    simp [hids, hempty, mapFind]
  · rw [if_neg hids]
    rw [nowNextFold_mapFind]
    simp only [mapFind]
    by_cases hrc : (retrievedRows st sourceId channelIds now).filter (fun p => p.channel_id = c) = []
    · simp [hrc]
    · rw [if_neg hrc, if_neg hrc]
      rcases hsc : chanScan now { now := none, next := none }
          ((retrievedRows st sourceId channelIds now).filter (fun p => p.channel_id = c)) with ⟨nw, nx⟩
      have h1 := chanScan_now_eq now { now := none, next := none }
        ((retrievedRows st sourceId channelIds now).filter (fun p => p.channel_id = c))
      have h2 := chanScan_next_eq now { now := none, next := none }
        ((retrievedRows st sourceId channelIds now).filter (fun p => p.channel_id = c))
      rw [hsc] at h1 h2
      simp only at h1 h2
      have h1b : nw = lastWhere (isCurrentAt now)
          ((retrievedRows st sourceId channelIds now).filter (fun p => p.channel_id = c)) := by
        rw [h1]
        cases lastWhere (isCurrentAt now)
            ((retrievedRows st sourceId channelIds now).filter (fun p => p.channel_id = c)) <;> rfl
      rw [h1b, h2]

/-- C4 counterexample: with two overlapping programs on one channel the
`now` slot is not the first program of the ascending scan satisfying
`start_time <= now < end_time` (which is `rowA`) but the last (`rowB`). -/
theorem C4_counterexample :
    (retrievedRows overlapDB "s1" ["c"] 50).find? (isCurrentAt 50) = some rowA ∧
    mapFind (getNowNextPrograms overlapDB "s1" ["c"] 50) "c" =
      some { now := some rowB, next := none } ∧
    ¬ rowB = rowA := by decide

/-- `find?` commutes with mapping a function that preserves the
predicate. -/
theorem find?_map_pred {α : Type} (p : α → Bool) (g : α → α)
    (hp : ∀ s, p (g s) = p s) (l : List α) :
    (l.map g).find? p = (l.find? p).map g := by
  induction l with
  | nil => simp
  | cons a t ih =>
      simp only [List.map_cons]
      cases h : p a with
      | true =>
          rw [List.find?_cons_of_pos _ (by rw [hp]; exact h), List.find?_cons_of_pos _ h]
          rfl
      | false =>
          rw [List.find?_cons_of_neg _ (by rw [hp]; simp [h]),
            List.find?_cons_of_neg _ (by simp [h])]
          exact ih

/-- `find?` over an append whose first part has no hit. -/
theorem find?_append_of_none {α : Type} (p : α → Bool) (l1 l2 : List α)
    (h : l1.find? p = none) : (l1 ++ l2).find? p = l2.find? p := by
  induction l1 with
  | nil => simp
  | cons a t ih =>
      have hpa : ¬ p a = true := by
        intro hpa
        rw [List.find?_cons_of_pos t hpa] at h
        exact Option.noConfusion h
      rw [List.find?_cons_of_neg t hpa] at h
      rw [List.cons_append, List.find?_cons_of_neg _ hpa]
      exact ih h

/-- `getOrCreateEPGSource` leaves the source it returns as the first row
matching the playlist, bound to the requested URL, and never touches the
programs table. -/
theorem getOrCreateEPGSource_spec (st : DBState) (pid url : String) (now : Int) :
    (getOrCreateEPGSource st pid url now).1.sources.find?
        (fun s => s.playlist_id = pid) = some (getOrCreateEPGSource st pid url now).2 ∧
    (getOrCreateEPGSource st pid url now).2.playlist_id = pid ∧
    (getOrCreateEPGSource st pid url now).2.epg_url = url ∧
    (getOrCreateEPGSource st pid url now).1.programs = st.programs := by
  cases hf : st.sources.find? (fun s => s.playlist_id = pid) with
  | none =>
      have hgc : getOrCreateEPGSource st pid url now =
          ({ st with sources := st.sources ++ [newSource pid url now st.nextId],
                     nextId := st.nextId + 1,
                     events := st.events ++ [DBEvent.createSource (freshId st.nextId)] },
            newSource pid url now st.nextId) := by
        simp [getOrCreateEPGSource, hf]
      rw [hgc]
      refine ⟨?_, rfl, rfl, rfl⟩
      simp only
      rw [find?_append_of_none _ _ _ hf]
      simp [newSource]
  | some ex =>
      have hex : ex.playlist_id = pid := by
        have := List.find?_some hf
        simpa using this
      by_cases hu : ex.epg_url = url
      · have hgc : getOrCreateEPGSource st pid url now = (st, ex) := by
          simp [getOrCreateEPGSource, hf, hu]
        rw [hgc]
        exact ⟨hf, hex, hu, rfl⟩
      · have hgc : getOrCreateEPGSource st pid url now =
            ({ st with sources := st.sources.map (rebindRow url now ex.id),
                       events := st.events ++ [DBEvent.rebindSource ex.id] },
              { ex with epg_url := url, updated_at := now, last_fetched := none,
                        fetch_error := none }) := by
          simp [getOrCreateEPGSource, hf, hu]
        have hpresv : ∀ s : EPGSource,
            (fun s : EPGSource => decide (s.playlist_id = pid)) (rebindRow url now ex.id s) =
            (fun s : EPGSource => decide (s.playlist_id = pid)) s := by
          intro s
          unfold rebindRow
          split <;> rfl
        rw [hgc]
        refine ⟨?_, hex, rfl, rfl⟩
        simp only
        rw [find?_map_pred _ _ hpresv, hf]
        simp [rebindRow]

/-- Clearing a source's rows then filtering for them gives nothing. -/
theorem filter_not_filter_self (l : List EPGProgramRow) (sid : String) :
    (l.filter (fun p => ¬ p.epg_source_id = sid)).filter
      (fun p => p.epg_source_id = sid) = [] := by
  induction l with
  | nil => simp
  | cons a t ih => by_cases h : a.epg_source_id = sid <;> simp [h, ih]

/-- Every row built for a batch insert belongs to the target source. -/
theorem rowsFor_source (sid : String) (n : Nat) (now : Int) (ps : List EPGProgram) :
    (rowsFor sid n now ps).filter (fun p => p.epg_source_id = sid) = rowsFor sid n now ps := by
  induction ps generalizing n with
  | nil => simp [rowsFor]
  | cons p t ih => simp [rowsFor, programRow, ih]

/-- `nonEmptyOpt` is the identity away from `some ""`. -/
theorem nonEmptyOpt_eq_self (d : Option String) (h : d ≠ some "") : nonEmptyOpt d = d := by
  cases d with
  | none => rfl
  | some s =>
      by_cases hs : s = ""
      · exact absurd (by rw [hs]) h
      · simp [nonEmptyOpt, hs]

/-- The content of the rows built for a batch insert is the inserted
program list, provided no optional field is the empty string (which the
`|| null` coercions of the source would collapse to `NULL`). -/
theorem rowsFor_content (sid : String) (n : Nat) (now : Int) (ps : List EPGProgram) :
    (∀ p ∈ ps, p.description ≠ some "" ∧ p.category ≠ some "" ∧ p.icon_url ≠ some "") →
    (rowsFor sid n now ps).map rowContent = ps := by
  induction ps generalizing n with
  | nil => intro _; simp [rowsFor]
  | cons p t ih =>
      intro h
      have hp := h p (by simp)
      have ht := fun q hq => h q (List.mem_cons_of_mem _ hq)
      simp only [rowsFor, List.map_cons, ih (n + 1) ht]
      cases p with
      | mk c ti de stt en ca ic =>
          simp only [rowContent, programRow] at hp ⊢
          rw [nonEmptyOpt_eq_self _ hp.1, nonEmptyOpt_eq_self _ hp.2.1,
            nonEmptyOpt_eq_self _ hp.2.2]

/-- `find?` by playlist after the fetch-stamp update rewrites the found
row's five updated fields. -/
theorem find?_after_updateFetch (st1 : DBState) (sid : String) (lm et fe : Option String)
    (now : Int) (pid : String) (s1 : EPGSource)
    (hfind : st1.sources.find? (fun s => s.playlist_id = pid) = some s1)
    (hid : s1.id = sid) :
    (updateEPGSourceFetch st1 sid lm et fe now).sources.find?
        (fun s => s.playlist_id = pid) =
      some { s1 with last_fetched := some now, last_modified := lm, etag := et,
                     fetch_error := fe, updated_at := now } := by
  have hpresv : ∀ s : EPGSource,
      (fun s : EPGSource => decide (s.playlist_id = pid)) (updateSourceRow sid lm et fe now s) =
      (fun s : EPGSource => decide (s.playlist_id = pid)) s := by
    intro s
    unfold updateSourceRow
    split <;> rfl
  simp only [updateEPGSourceFetch]
  rw [find?_map_pred _ _ hpresv, hfind]
  simp [updateSourceRow, hid]

/-- When the stored source already carries the requested URL,
`getOrCreateEPGSource` returns it with the state unchanged. -/
theorem getOrCreate_of_find_eq (st : DBState) (pid url : String) (now : Int) (s2 : EPGSource)
    (hf : st.sources.find? (fun s => s.playlist_id = pid) = some s2)
    (hu : s2.epg_url = url) :
    getOrCreateEPGSource st pid url now = (st, s2) := by
  unfold getOrCreateEPGSource
  rw [hf]
  simp only
  rw [if_pos hu]

/-- A call that resolves to a non-stale source returns at once with the
state unchanged and no fetch. -/
theorem refresh_of_fresh (st : DBState) (pid url : String) (now : Int)
    (res : ParseXMLTVResult) (s2 : EPGSource)
    (hgc : getOrCreateEPGSource st pid url now = (st, s2))
    (hsr : shouldRefreshEPG s2 now = false) :
    refreshEPGIfNeeded st pid url now res =
      (st, { source := some s2, refreshed := false, error := none }) := by
  simp only [refreshEPGIfNeeded, hgc]
  rw [if_pos (by simp [hsr])]

/-- C1: on a stale source, a refresh whose parse is usable (not the
zero-programs-with-errors failure) reports `refreshed`, performs exactly
the steps fetch, prune (programs ended over an hour ago), delete-all,
bulk-insert, stamp `last_fetched` — in that order — and afterwards the
stored programs of the source are exactly the freshly parsed set (the
side condition rules out optional text fields that are the empty string,
which the insert's `|| null` coercion would store as `NULL`). -/
theorem C1_refresh_replaces (st : DBState) (pid url : String) (now : Int)
    (res : ParseXMLTVResult)
    (hstale : shouldRefreshEPG (getOrCreateEPGSource st pid url now).2 now = true)
    (husable : res.programs ≠ [] ∨ res.errors = [])
    (hclean : ∀ p ∈ res.programs,
      p.description ≠ some "" ∧ p.category ≠ some "" ∧ p.icon_url ≠ some "") :
    (refreshEPGIfNeeded st pid url now res).2.refreshed = true ∧
    (refreshEPGIfNeeded st pid url now res).1.events =
      (getOrCreateEPGSource st pid url now).1.events ++
        [DBEvent.fetchGuide url,
         DBEvent.pruneOld (getOrCreateEPGSource st pid url now).2.id,
         DBEvent.clearAll (getOrCreateEPGSource st pid url now).2.id,
         DBEvent.bulkInsert (getOrCreateEPGSource st pid url now).2.id res.programs.length,
         DBEvent.stampFetch (getOrCreateEPGSource st pid url now).2.id] ∧
    ((refreshEPGIfNeeded st pid url now res).1.programs.filter
        (fun p => p.epg_source_id = (getOrCreateEPGSource st pid url now).2.id)).map rowContent
      = res.programs := by
  have hfail : ¬ (res.programs.length = 0 ∧ 0 < res.errors.length) := by
    rcases husable with h | h
    · intro hc
      exact h (List.length_eq_zero.mp hc.1)
    · intro hc
      rw [h] at hc
      simp at hc
  simp only [refreshEPGIfNeeded]
  rw [if_neg (fun hh => hh hstale), if_neg hfail]
  refine ⟨rfl, ?_, ?_⟩
  · simp [updateEPGSourceFetch, insertEPGPrograms, clearEPGPrograms, cleanupOldPrograms, logEvent]
  · simp only [updateEPGSourceFetch, insertEPGPrograms, clearEPGPrograms, cleanupOldPrograms,
      logEvent]
    rw [List.filter_append, filter_not_filter_self, rowsFor_source, List.nil_append,
      rowsFor_content _ _ _ _ hclean]

/-- Witness for C1: refreshing a fresh source record in an empty database
with a one-program parse stores exactly that program. -/
theorem C1_refresh_replaces_witness :
    ((refreshEPGIfNeeded emptyDB "p1" "http://g.example/e" 7200000 exParse1).1.programs.filter
        (fun p => p.epg_source_id =
          (getOrCreateEPGSource emptyDB "p1" "http://g.example/e" 7200000).2.id)).map rowContent
      = exParse1.programs :=
  (C1_refresh_replaces emptyDB "p1" "http://g.example/e" 7200000 exParse1 (by decide)
    (Or.inl (by decide)) (by decide)).2.2

/-- C2: when the parse yields zero programs and at least one error, the
refresh records the joined failure reason in `fetch_error`, leaves the
stored programs untouched, and returns the failure; and any repeated call
for the same playlist and URL within the one-hour staleness window
returns immediately with the state unchanged — in particular it performs
no new fetch. -/
theorem C2_failure_recorded (st : DBState) (pid url : String) (now : Int)
    (res : ParseXMLTVResult) (hnow : 0 < now)
    (hstale : shouldRefreshEPG (getOrCreateEPGSource st pid url now).2 now = true)
    (hempty : res.programs = []) (herr : res.errors ≠ []) :
    (refreshEPGIfNeeded st pid url now res).2.refreshed = false ∧
    (refreshEPGIfNeeded st pid url now res).2.error = some (joinSemi res.errors) ∧
    (refreshEPGIfNeeded st pid url now res).1.programs = st.programs ∧
    (refreshEPGIfNeeded st pid url now res).1.sources.find? (fun s => s.playlist_id = pid) =
      some { (getOrCreateEPGSource st pid url now).2 with
             last_fetched := some now, last_modified := none, etag := none,
             fetch_error := some (joinSemi res.errors), updated_at := now } ∧
    (∀ (now2 : Int) (res2 : ParseXMLTVResult), now2 ≤ now + 3600000 →
      refreshEPGIfNeeded (refreshEPGIfNeeded st pid url now res).1 pid url now2 res2 =
        ((refreshEPGIfNeeded st pid url now res).1,
         { source := some { (getOrCreateEPGSource st pid url now).2 with
                            last_fetched := some now, last_modified := none, etag := none,
                            fetch_error := some (joinSemi res.errors), updated_at := now },
           refreshed := false, error := none })) := by
  obtain ⟨hfind, hpid, hurl, hprog⟩ := getOrCreateEPGSource_spec st pid url now
  have hfailc : res.programs.length = 0 ∧ 0 < res.errors.length := by
    constructor
    · rw [hempty]
      rfl
    · exact List.length_pos.mpr herr
  have hmain : refreshEPGIfNeeded st pid url now res =
      (updateEPGSourceFetch
         (logEvent (getOrCreateEPGSource st pid url now).1 (DBEvent.fetchGuide url))
         (getOrCreateEPGSource st pid url now).2.id none none (some (joinSemi res.errors)) now,
       { source := some (getOrCreateEPGSource st pid url now).2, refreshed := false,
         error := some (joinSemi res.errors) }) := by
    simp only [refreshEPGIfNeeded]
    rw [if_neg (fun hh => hh hstale), if_pos hfailc]
  have hfind2 : (refreshEPGIfNeeded st pid url now res).1.sources.find?
      (fun s => s.playlist_id = pid) =
      some { (getOrCreateEPGSource st pid url now).2 with
             last_fetched := some now, last_modified := none, etag := none,
             fetch_error := some (joinSemi res.errors), updated_at := now } := by
    rw [hmain]
    exact find?_after_updateFetch _ _ _ _ _ _ _ _ hfind rfl
  refine ⟨by rw [hmain], by rw [hmain], ?_, hfind2, ?_⟩
  · rw [hmain]
    simp only [updateEPGSourceFetch, logEvent]
    exact hprog
  · intro now2 res2 hb
    have hsr : shouldRefreshEPG
        { (getOrCreateEPGSource st pid url now).2 with
          last_fetched := some now, last_modified := none, etag := none,
          fetch_error := some (joinSemi res.errors), updated_at := now } now2 = false := by
      simp only [shouldRefreshEPG]
      simp only [decide_eq_false_iff_not]
      omega
    exact refresh_of_fresh _ _ _ _ _ _
      (getOrCreate_of_find_eq _ _ _ _ _ hfind2 hurl) hsr

/-- Witness for C2: a failed refresh on an empty database records the
error and a repeated call half an hour later performs nothing. -/
theorem C2_failure_recorded_witness :
    (refreshEPGIfNeeded emptyDB "p1" "http://g.example/e" 7200000 exParseFail).2.refreshed
      = false :=
  (C2_failure_recorded emptyDB "p1" "http://g.example/e" 7200000 exParseFail (by decide)
    (by decide) (by decide) (by decide)).1

/-- C10: every refresh attempt, failed or successful, records its outcome
through the same source update, which unconditionally sets `last_fetched`
and `updated_at` to the attempt time and writes only the five fields
`last_fetched`, `last_modified`, `etag`, `fetch_error`, `updated_at` of
the matching row (every other field, every other row and the programs
table are untouched); consequently after any stale refresh attempt —
failed exactly as successful — the source is non-stale for the next
hour. -/
theorem C10_stamp_frame :
    (∀ (st : DBState) (sid : String) (lm et fe : Option String) (now : Int),
      (updateEPGSourceFetch st sid lm et fe now).programs = st.programs ∧
      (updateEPGSourceFetch st sid lm et fe now).nextId = st.nextId ∧
      (updateEPGSourceFetch st sid lm et fe now).sources =
        st.sources.map (updateSourceRow sid lm et fe now) ∧
      ∀ s : EPGSource,
        (updateSourceRow sid lm et fe now s).id = s.id ∧
        (updateSourceRow sid lm et fe now s).playlist_id = s.playlist_id ∧
        (updateSourceRow sid lm et fe now s).epg_url = s.epg_url ∧
        (updateSourceRow sid lm et fe now s).created_at = s.created_at ∧
        (¬ s.id = sid → updateSourceRow sid lm et fe now s = s) ∧
        (s.id = sid →
          (updateSourceRow sid lm et fe now s).last_fetched = some now ∧
          (updateSourceRow sid lm et fe now s).updated_at = now ∧
          (updateSourceRow sid lm et fe now s).last_modified = lm ∧
          (updateSourceRow sid lm et fe now s).etag = et ∧
          (updateSourceRow sid lm et fe now s).fetch_error = fe)) ∧
    (∀ (st : DBState) (pid url : String) (now : Int) (res : ParseXMLTVResult),
      0 < now →
      shouldRefreshEPG (getOrCreateEPGSource st pid url now).2 now = true →
      ∃ s2 : EPGSource,
        (refreshEPGIfNeeded st pid url now res).1.sources.find?
          (fun s => s.playlist_id = pid) = some s2 ∧
        s2.last_fetched = some now ∧ s2.updated_at = now ∧
        ∀ now2 : Int, now2 ≤ now + 3600000 → shouldRefreshEPG s2 now2 = false) := by
  constructor
  · intro st sid lm et fe now
    refine ⟨rfl, rfl, rfl, ?_⟩
    intro s
    unfold updateSourceRow
    by_cases h : s.id = sid <;> simp [h]
  · intro st pid url now res hnow hstale
    obtain ⟨hfind, hpid, hurl, hprog⟩ := getOrCreateEPGSource_spec st pid url now
    by_cases hc : res.programs.length = 0 ∧ 0 < res.errors.length
    · have hmain : refreshEPGIfNeeded st pid url now res =
          (updateEPGSourceFetch
             (logEvent (getOrCreateEPGSource st pid url now).1 (DBEvent.fetchGuide url))
             (getOrCreateEPGSource st pid url now).2.id none none
             (some (joinSemi res.errors)) now,
           { source := some (getOrCreateEPGSource st pid url now).2, refreshed := false,
             error := some (joinSemi res.errors) }) := by
        simp only [refreshEPGIfNeeded]
        rw [if_neg (fun hh => hh hstale), if_pos hc]
      refine ⟨{ (getOrCreateEPGSource st pid url now).2 with
                last_fetched := some now, last_modified := none, etag := none,
                fetch_error := some (joinSemi res.errors), updated_at := now },
              ?_, rfl, rfl, ?_⟩
      · rw [hmain]
        exact find?_after_updateFetch _ _ _ _ _ _ _ _ hfind rfl
      · intro now2 hb
        simp only [shouldRefreshEPG]
        simp only [decide_eq_false_iff_not]
        omega
    · have hmain : refreshEPGIfNeeded st pid url now res =
          (updateEPGSourceFetch
             (insertEPGPrograms
               (clearEPGPrograms
                 (cleanupOldPrograms
                   (logEvent (getOrCreateEPGSource st pid url now).1 (DBEvent.fetchGuide url))
                   (getOrCreateEPGSource st pid url now).2.id now)
                 (getOrCreateEPGSource st pid url now).2.id)
               (getOrCreateEPGSource st pid url now).2.id res.programs now)
             (getOrCreateEPGSource st pid url now).2.id none none none now,
           { source := some { (getOrCreateEPGSource st pid url now).2 with
                              last_fetched := some now },
             refreshed := true, error := none }) := by
        simp only [refreshEPGIfNeeded]
        rw [if_neg (fun hh => hh hstale), if_neg hc]
      refine ⟨{ (getOrCreateEPGSource st pid url now).2 with
                last_fetched := some now, last_modified := none, etag := none,
                fetch_error := none, updated_at := now },
              ?_, rfl, rfl, ?_⟩
      · rw [hmain]
        exact find?_after_updateFetch _ _ _ _ _ _ _ _ hfind rfl
      · intro now2 hb
        simp only [shouldRefreshEPG]
        simp only [decide_eq_false_iff_not]
        omega

/-- Witness for C10: a failed refresh on an empty database leaves the
created source stamped and non-stale for the following hour. -/
theorem C10_stamp_frame_witness :
    ∃ s2 : EPGSource,
      (refreshEPGIfNeeded emptyDB "p1" "http://g.example/e" 7200000 exParseFail).1.sources.find?
        (fun s => s.playlist_id = "p1") = some s2 ∧
      s2.last_fetched = some 7200000 ∧ s2.updated_at = 7200000 ∧
      ∀ now2 : Int, now2 ≤ 7200000 + 3600000 → shouldRefreshEPG s2 now2 = false :=
  C10_stamp_frame.2 emptyDB "p1" "http://g.example/e" 7200000 exParseFail (by decide) (by decide)

end IPTV
